import Mathlib

/-! Shallow embedding of `schedule.py` (scheduled-query reconciler) together
with a model of its external Transfer Service collaborator, and proofs of
the specified properties of `get_bq_client` and
`create_or_update_scheduled_query`.
-/

namespace Schedule

/-- The fixed project identifier: `PROJECT_ID = "four-metrics"` in `schedule.py`. -/
def PROJECT_ID : String := "four-metrics"

/-- `client.project_path(project)`: the parent resource path derived from the
project identifier. -/
def project_path (project : String) : String := "projects/" ++ project

/-- The error-message text that `get_bq_client` classifies as the transient
provisioning error (line 56 of `schedule.py`). -/
def service_account_error_text : String :=
  "BigQuery Data Transfer service account is not found"

/-- Substring containment on character lists: Python `needle in hay`. -/
def containsSubstrChars (needle : List Char) : List Char → Bool
  | [] => needle.isEmpty
  | c :: rest => List.isPrefixOf needle (c :: rest) || containsSubstrChars needle rest

/-- Python's `needle in hay` on strings. -/
def containsSubstr (needle hay : String) : Bool :=
  containsSubstrChars needle.data hay.data

/-- A single quote character, used by the reconciler's result strings. -/
def apos : String := (Char.ofNat 39).toString

/-- The observable outcome of a call to `get_bq_client`:
either the function returns normally with a client handle and the parent
path, or execution of `return client, parent` raises `UnboundLocalError`
because no attempt ever bound `client`, or an exception `raised msg`
propagates to the caller, or (for the fuel-indexed model) the retry loop is
still `running`. -/
inductive GetBqResult where
  | returned (client : Nat) (parent : String)
  | unboundLocalError
  | raised (msg : String)
  | running
deriving DecidableEq, Repr

/-- One execution of the `try` block of `get_bq_client`
(load credentials, construct the client, derive the parent path):
either it succeeds, producing a client handle, or it raises an error
with a message.  A whole run of `get_bq_client` is determined by the
outcome of each successive attempt, modelled as a stream. -/
def Attempts : Type := Nat → Except String Nat

/-- The `while retry is True` loop of `get_bq_client`, fuel-indexed, starting
at attempt `i`.  On a successful attempt the loop stops and the function
returns the client and `client.project_path(PROJECT_ID)`.  On an error whose
message contains `service_account_error_text` the loop retries with the next
attempt.  On any other error the loop stops (`retry = False`) with the error
swallowed; since `client`/`parent` were never bound, the trailing
`return client, parent` raises `UnboundLocalError`. -/
def get_bq_client_loop (attempts : Attempts) : Nat → Nat → GetBqResult
  | 0, _ => .running
  | fuel + 1, i =>
    match attempts i with
    | .ok c => .returned c (project_path PROJECT_ID)
    | .error e =>
      if containsSubstr service_account_error_text e then
        get_bq_client_loop attempts fuel (i + 1)
      else
        .unboundLocalError

/-- `get_bq_client()`: run the retry loop from the first attempt. -/
def get_bq_client (attempts : Attempts) (fuel : Nat) : GetBqResult :=
  get_bq_client_loop attempts fuel 0

/-- An attempt outcome is decisive when it makes the loop stop: a success, or
an error whose message does not contain the transient text. -/
def decisive : Except String Nat → Bool
  | .ok _ => true
  | .error e => !containsSubstr service_account_error_text e

/-- The `params` message of a transfer configuration (`schedule.py` lines
79-83). -/
structure TransferParams where
  query : String
  destination_table_name_template : String
  write_disposition : String
deriving DecidableEq, Repr

/-- A transfer configuration: the fields `schedule.py` reads or writes, plus
the remote-assigned resource `name`. -/
structure TransferConfig where
  name : String
  destination_dataset_id : String
  display_name : String
  data_source_id : String
  params : TransferParams
  schedule : String
deriving DecidableEq, Repr

/-- The `ParseDict` call of `schedule.py` lines 74-87: the desired spec built
from the table name and the query text read from the query file.  A fresh
protobuf `TransferConfig()` has an empty `name`. -/
def mk_transfer_config (table query : String) : TransferConfig :=
  { name := ""
    destination_dataset_id := "four_keys"
    display_name := table
    data_source_id := "scheduled_query"
    params :=
      { query := query
        destination_table_name_template := table
        write_disposition := "WRITE_TRUNCATE" }
    schedule := "every 24 hours" }

/-- Modelled from the spec: the remote Transfer Service state (the source
only holds the client stubs; §6 of the spec gives the black-box contract).
`configs` is the sequence of transfer configurations in the order the
service lists them; `next_id` drives assignment of fresh opaque resource
names. -/
structure Service where
  configs : List TransferConfig
  next_id : Nat
deriving DecidableEq, Repr

/-- Modelled from the spec: the opaque resource identifier the service
assigns to a newly created configuration. -/
def fresh_name (s : Service) : String := "transferConfigs/" ++ toString s.next_id

/-- Modelled from the spec (glossary, "field mask"): apply an update
restricted to the field paths in `paths`, leaving all other fields of the
remote object untouched.  The remote identity `name` is never rewritten. -/
def apply_field_mask (paths : List String) (spec old : TransferConfig) : TransferConfig :=
  { name := old.name
    destination_dataset_id :=
      if paths.contains "destination_dataset_id" then spec.destination_dataset_id
      else old.destination_dataset_id
    display_name :=
      if paths.contains "display_name" then spec.display_name else old.display_name
    data_source_id :=
      if paths.contains "data_source_id" then spec.data_source_id else old.data_source_id
    params := if paths.contains "params" then spec.params else old.params
    schedule := if paths.contains "schedule" then spec.schedule else old.schedule }

/-- `client.list_transfer_configs(parent)`: the configurations in service
order. -/
def list_transfer_configs (s : Service) : List TransferConfig := s.configs

/-- Modelled from the spec: `createConfig(parent, spec)` stores the spec
under a fresh remote-assigned name and returns the stored configuration. -/
def create_transfer_config (s : Service) (spec : TransferConfig) :
    TransferConfig × Service :=
  let created := { spec with name := fresh_name s }
  (created, { configs := s.configs ++ [created], next_id := s.next_id + 1 })

/-- Modelled from the spec: `updateConfig(spec, fieldMask)` rewrites, on the
configuration whose `name` matches `spec.name`, exactly the fields listed in
the mask, and returns the updated configuration (`none` when no
configuration has that name). -/
def update_transfer_config (s : Service) (spec : TransferConfig)
    (update_mask : List String) : Option TransferConfig × Service :=
  ((s.configs.find? (fun c => c.name == spec.name)).map (apply_field_mask update_mask spec),
   { s with
      configs := s.configs.map (fun c =>
        if c.name == spec.name then apply_field_mask update_mask spec c else c) })

/-- The resource name carried by an update response. -/
def response_name : Option TransferConfig → String
  | some r => r.name
  | none => ""

/-- A network call the reconciler issues, recorded for the trace of one
invocation. -/
inductive Call where
  | updateCall (spec : TransferConfig) (update_mask : List String)
  | manualRunCall (name : String) (requested_run_time : Nat)
  | createCall (spec : TransferConfig)
deriving DecidableEq, Repr

/-- The `for scheduled_query in client.list_transfer_configs(parent)` loop of
`schedule.py` lines 90-105: scan the listed configurations in order; on the
first whose `display_name` equals `table`, copy its resource name onto the
spec, issue the masked update, trigger a manual run timestamped `run_time`,
and return the `Updated` message; otherwise fall through (`none`). -/
def reconcile_loop (table : String) (transfer_config : TransferConfig)
    (run_time : Nat) (s : Service) :
    List TransferConfig → Option (String × Service × List Call)
  | [] => none
  | scheduled_query :: rest =>
    if scheduled_query.display_name == table then
      let tc := { transfer_config with name := scheduled_query.name }
      let update_mask := ["params"]
      let rs := update_transfer_config s tc update_mask
      some ("Updated scheduled query " ++ apos ++ response_name rs.1 ++ apos,
        rs.2,
        [Call.updateCall tc update_mask,
         Call.manualRunCall tc.name run_time])
    else
      reconcile_loop table transfer_config run_time s rest

/-- `create_or_update_scheduled_query` (lines 62-109), with the client/flag
plumbing made explicit: `table` is the table flag, `query` the text read
from the query file, `run_time` the current time used for the manual run,
and `s` the remote service state.  Returns the status string, the new
service state, and the trace of calls issued. -/
def create_or_update_scheduled_query (table query : String) (run_time : Nat)
    (s : Service) : String × Service × List Call :=
  let transfer_config := mk_transfer_config table query
  match reconcile_loop table transfer_config run_time s (list_transfer_configs s) with
  | some result => result
  | none =>
    let rs := create_transfer_config s transfer_config
    ("Created scheduled query " ++ apos ++ rs.1.name ++ apos,
     rs.2,
     [Call.createCall transfer_config])

/-- A sample remote configuration used for concrete instantiations. -/
def sampleConfig : TransferConfig :=
  { name := "n0"
    destination_dataset_id := "four_keys"
    display_name := "deployments"
    data_source_id := "scheduled_query"
    params :=
      { query := "SELECT 0"
        destination_table_name_template := "deployments"
        write_disposition := "WRITE_TRUNCATE" }
    schedule := "every 24 hours" }

/-- A second sample configuration with the same display name. -/
def sampleConfig2 : TransferConfig := { sampleConfig with name := "n1" }

/-- A sample service holding one configuration for table `deployments`. -/
def sampleService : Service := ⟨[sampleConfig], 1⟩

/-- A sample service holding two configurations with the same display
name. -/
def dupService : Service := ⟨[sampleConfig, sampleConfig2], 2⟩

/-! Helper lemmas -/

/-- Under the mask `["params"]` only the `params` field is rewritten. -/
lemma apply_field_mask_params_eq (spec old : TransferConfig) :
    apply_field_mask ["params"] spec old = { old with params := spec.params } := rfl

/-- When some listed configuration carries the requested resource name, the
update response carries exactly that name. -/
lemma response_name_update_eq (s : Service) (spec : TransferConfig)
    (paths : List String) (h : ∃ c ∈ s.configs, c.name = spec.name) :
    response_name (update_transfer_config s spec paths).1 = spec.name := by
  obtain ⟨c0, hc0, hn0⟩ := h
  unfold update_transfer_config
  cases hf : s.configs.find? (fun c => c.name == spec.name) with
  | none =>
    exfalso
    have := List.find?_eq_none.mp hf c0 hc0
    simp [hn0] at this
  | some c =>
    have hc : c.name = spec.name := by
      have := List.find?_some hf
      simpa using this
    simpa [response_name, apply_field_mask] using hc

/-- The scan loop falls through when no listed configuration matches the
table name. -/
lemma reconcile_loop_eq_none (table : String) (tc : TransferConfig) (t : Nat)
    (s : Service) (l : List TransferConfig)
    (h : ∀ c ∈ l, c.display_name ≠ table) :
    reconcile_loop table tc t s l = none := by
  induction l with
  | nil => rfl
  | cons a rest ih =>
    have ha : (a.display_name == table) = false := by
      simp [h a (List.mem_cons_self a rest)]
    simp only [reconcile_loop, ha, Bool.false_eq_true, if_false]
    exact ih (fun c hc => h c (List.mem_cons_of_mem a hc))

/-- The scan loop stops at the first matching configuration and issues the
masked update plus the manual run. -/
lemma reconcile_loop_first_match (table : String) (tc : TransferConfig)
    (t : Nat) (s : Service) (l1 : List TransferConfig) (m : TransferConfig)
    (l2 : List TransferConfig) (h1 : ∀ c ∈ l1, c.display_name ≠ table)
    (hm : m.display_name = table) :
    reconcile_loop table tc t s (l1 ++ m :: l2) =
      some ("Updated scheduled query " ++ apos ++
              response_name
                (update_transfer_config s { tc with name := m.name } ["params"]).1 ++
              apos,
            (update_transfer_config s { tc with name := m.name } ["params"]).2,
            [Call.updateCall { tc with name := m.name } ["params"],
             Call.manualRunCall m.name t]) := by
  induction l1 with
  | nil =>
    have hmeq : (m.display_name == table) = true := by simp [hm]
    simp [reconcile_loop, hmeq]
  | cons a rest ih =>
    have ha : (a.display_name == table) = false := by
      simp [h1 a (List.mem_cons_self a rest)]
    simp only [List.cons_append, reconcile_loop, ha, Bool.false_eq_true, if_false]
    exact ih (fun c hc => h1 c (List.mem_cons_of_mem a hc))

/-- Split a list at its first configuration whose display name matches. -/
lemma exists_first_match (table : String) (l : List TransferConfig)
    (h : ∃ c ∈ l, c.display_name = table) :
    ∃ l1 m l2, l = l1 ++ m :: l2 ∧ (∀ c ∈ l1, c.display_name ≠ table) ∧
      m.display_name = table := by
  induction l with
  | nil => simp at h
  | cons a rest ih =>
    by_cases hd : a.display_name = table
    · exact ⟨[], a, rest, rfl, by simp, hd⟩
    · have hr : ∃ c ∈ rest, c.display_name = table := by
        obtain ⟨c, hc, hdc⟩ := h
        rcases List.mem_cons.mp hc with hca | hcr
        · exact absurd (hca ▸ hdc) hd
        · exact ⟨c, hcr, hdc⟩
      obtain ⟨l1, m, l2, heq, hl1, hm⟩ := ih hr
      refine ⟨a :: l1, m, l2, by rw [heq]; rfl, ?_, hm⟩
      intro c hc
      rcases List.mem_cons.mp hc with hca | hcl
      · exact hca ▸ hd
      · exact hl1 c hcl

/-- In a list whose resource names are pairwise distinct, no configuration
left or right of `m` shares `m`'s name. -/
lemma names_ne_of_nodup (l1 : List TransferConfig) (m : TransferConfig)
    (l2 : List TransferConfig)
    (hnd : ((l1 ++ m :: l2).map (fun c => c.name)).Nodup) :
    (∀ c ∈ l1, c.name ≠ m.name) ∧ (∀ c ∈ l2, c.name ≠ m.name) := by
  rw [List.map_append, List.map_cons, List.nodup_append] at hnd
  obtain ⟨_, h2, hdisj⟩ := hnd
  constructor
  · intro c hc heq
    refine hdisj (List.mem_map_of_mem _ hc) ?_
    rw [heq]
    exact List.mem_cons_self m.name (l2.map (fun c => c.name))
  · intro c hc heq
    exact (List.nodup_cons.mp h2).1 (heq ▸ List.mem_map_of_mem _ hc)

/-- Mapping the keyed update over a name-unique list rewrites the matched
configuration in place and nothing else. -/
lemma map_update_decomp (paths : List String) (spec : TransferConfig)
    (l1 : List TransferConfig) (m : TransferConfig) (l2 : List TransferConfig)
    (h1 : ∀ c ∈ l1, c.name ≠ m.name) (h2 : ∀ c ∈ l2, c.name ≠ m.name)
    (hs : spec.name = m.name) :
    (l1 ++ m :: l2).map
        (fun c => if c.name == spec.name then apply_field_mask paths spec c else c)
      = l1 ++ apply_field_mask paths spec m :: l2 := by
  rw [List.map_append, List.map_cons]
  have hm : (m.name == spec.name) = true := by simp [hs]
  have e1 : l1.map
      (fun c => if c.name == spec.name then apply_field_mask paths spec c else c) = l1 := by
    have := List.map_congr_left (l := l1)
      (f := fun c => if c.name == spec.name then apply_field_mask paths spec c else c)
      (g := id) (fun c hc => by simp [hs, h1 c hc])
    simpa using this
  have e2 : l2.map
      (fun c => if c.name == spec.name then apply_field_mask paths spec c else c) = l2 := by
    have := List.map_congr_left (l := l2)
      (f := fun c => if c.name == spec.name then apply_field_mask paths spec c else c)
      (g := id) (fun c hc => by simp [hs, h2 c hc])
    simpa using this
  rw [e1, e2, hm]
  simp

/-- If some attempt within the fuel bound is decisive, the retry loop does
not run out of fuel still spinning. -/
lemma get_bq_client_loop_halts (attempts : Attempts) :
    ∀ fuel i, (∃ j, j < fuel ∧ decisive (attempts (i + j)) = true) →
      get_bq_client_loop attempts fuel i ≠ GetBqResult.running := by
  intro fuel
  induction fuel with
  | zero =>
    rintro i ⟨j, hj, _⟩
    exact absurd hj (Nat.not_lt_zero j)
  | succ fuel ih =>
    rintro i ⟨j, hj, hd⟩
    cases ha : attempts i with
    | ok c => simp [get_bq_client_loop, ha]
    | error e =>
      by_cases hc : containsSubstr service_account_error_text e = true
      · simp only [get_bq_client_loop, ha, hc, if_true]
        apply ih
        have hj0 : j ≠ 0 := by
          intro h0
          rw [h0, Nat.add_zero, ha] at hd
          simp [decisive, hc] at hd
        obtain ⟨k, hk⟩ := Nat.exists_eq_succ_of_ne_zero hj0
        refine ⟨k, by omega, ?_⟩
        have hik : i + 1 + k = i + j := by omega
        rw [hik]
        exact hd
      · have hc' : containsSubstr service_account_error_text e = false := by
          simpa using hc
        simp [get_bq_client_loop, ha, hc']

/-- If every attempt raises the transient provisioning error, the retry loop
spins for any amount of fuel. -/
lemma get_bq_client_loop_spins (attempts : Attempts)
    (h : ∀ n, decisive (attempts n) = false) :
    ∀ fuel i, get_bq_client_loop attempts fuel i = GetBqResult.running := by
  intro fuel
  induction fuel with
  | zero => intro i; rfl
  | succ fuel ih =>
    intro i
    cases ha : attempts i with
    | ok c =>
      have := h i
      rw [ha] at this
      simp [decisive] at this
    | error e =>
      have hce : containsSubstr service_account_error_text e = true := by
        have := h i
        rw [ha] at this
        simpa [decisive] using this
      simp [get_bq_client_loop, ha, hce, ih]

/-- When the scan loop finds a match, the reconciler returns its result. -/
lemma create_or_update_eq_some (table query : String) (run_time : Nat)
    (s : Service) (r : String × Service × List Call)
    (h : reconcile_loop table (mk_transfer_config table query) run_time s
      s.configs = some r) :
    create_or_update_scheduled_query table query run_time s = r := by
  simp [create_or_update_scheduled_query, list_transfer_configs, h]

/-- When the scan loop falls through, the reconciler creates the
configuration under a fresh name and reports `Created`. -/
lemma create_or_update_eq_none (table query : String) (run_time : Nat)
    (s : Service)
    (h : reconcile_loop table (mk_transfer_config table query) run_time s
      s.configs = none) :
    create_or_update_scheduled_query table query run_time s =
      ("Created scheduled query " ++ apos ++ fresh_name s ++ apos,
       { configs := s.configs ++
           [{ mk_transfer_config table query with name := fresh_name s }],
         next_id := s.next_id + 1 },
       [Call.createCall (mk_transfer_config table query)]) := by
  simp [create_or_update_scheduled_query, list_transfer_configs, h,
    create_transfer_config]

/-! Claims -/

/-- Claim C4: the retry loop of `get_bq_client` retries construction
unconditionally exactly when the raised error's message contains the
"service account is not found" transient-provisioning text; on any other
error it stops retrying, and that error is swallowed rather than re-raised
to the caller (the call does not end in `raised`). -/
theorem claim4_retry_classification (attempts : Attempts) (i fuel : Nat)
    (msg : String) :
    (attempts i = Except.error msg →
      containsSubstr service_account_error_text msg = true →
      get_bq_client_loop attempts (fuel + 1) i =
        get_bq_client_loop attempts fuel (i + 1)) ∧
    (attempts i = Except.error msg →
      containsSubstr service_account_error_text msg = false →
      get_bq_client_loop attempts (fuel + 1) i = GetBqResult.unboundLocalError ∧
      ∀ e, get_bq_client_loop attempts (fuel + 1) i ≠ GetBqResult.raised e) := by
  constructor
  · intro h hc
    simp [get_bq_client_loop, h, hc]
  · intro h hc
    refine ⟨by simp [get_bq_client_loop, h, hc], fun e => by simp [get_bq_client_loop, h, hc]⟩

/-- Witness for C4: a transient-message attempt makes the loop take one more
step, and a non-transient attempt ends in `unboundLocalError`. -/
theorem claim4_retry_classification_witness :
    (get_bq_client_loop (fun _ => Except.error service_account_error_text) 2 0 =
      get_bq_client_loop (fun _ => Except.error service_account_error_text) 1 1) ∧
    (get_bq_client_loop (fun _ => Except.error "boom") 2 0 =
        GetBqResult.unboundLocalError ∧
      ∀ e, get_bq_client_loop (fun _ => Except.error "boom") 2 0 ≠
        GetBqResult.raised e) :=
  ⟨(claim4_retry_classification (fun _ => Except.error service_account_error_text)
      0 1 service_account_error_text).1 rfl (by decide),
   (claim4_retry_classification (fun _ => Except.error "boom") 0 1 "boom").2
      rfl (by decide)⟩

/-- Claim C9: `get_bq_client` terminates whenever some attempt is decisive
(succeeds, or fails with a non-transient message); only an unbroken sequence
of transient-provisioning errors makes the retry loop run forever. -/
theorem claim9_termination (attempts : Attempts) :
    ((∃ n, decisive (attempts n) = true) →
      ∃ fuel, get_bq_client attempts fuel ≠ GetBqResult.running) ∧
    ((∀ n, decisive (attempts n) = false) →
      ∀ fuel, get_bq_client attempts fuel = GetBqResult.running) := by
  constructor
  · rintro ⟨n, hn⟩
    refine ⟨n + 1, ?_⟩
    unfold get_bq_client
    exact get_bq_client_loop_halts attempts (n + 1) 0
      ⟨n, Nat.lt_succ_self n, by simpa using hn⟩
  · intro h fuel
    unfold get_bq_client
    exact get_bq_client_loop_spins attempts h fuel 0

/-- Witness for C9: an immediately succeeding stream terminates, and an
all-transient stream spins for every amount of fuel. -/
theorem claim9_termination_witness :
    (∃ fuel, get_bq_client (fun _ => Except.ok 1) fuel ≠ GetBqResult.running) ∧
    ∀ fuel,
      get_bq_client (fun _ => Except.error service_account_error_text) fuel =
        GetBqResult.running :=
  ⟨(claim9_termination (fun _ => Except.ok 1)).1 ⟨0, by decide⟩,
   (claim9_termination (fun _ => Except.error service_account_error_text)).2
     (fun _ => by decide)⟩

/-- Claim C10: when the first construction attempt raises an error whose
message does not contain the transient text, `get_bq_client` does not return
a client silently: the trailing `return client, parent` raises
`UnboundLocalError`, so the original error is replaced by that unrelated
exception rather than surviving or turning into a normal return. -/
theorem claim10_unbound_local (attempts : Attempts) (msg : String) (fuel : Nat)
    (h1 : attempts 0 = Except.error msg)
    (h2 : containsSubstr service_account_error_text msg = false) :
    get_bq_client attempts (fuel + 1) = GetBqResult.unboundLocalError ∧
    (∀ c p, get_bq_client attempts (fuel + 1) ≠ GetBqResult.returned c p) ∧
    get_bq_client attempts (fuel + 1) ≠ GetBqResult.raised msg := by
  have hmain : get_bq_client attempts (fuel + 1) = GetBqResult.unboundLocalError := by
    unfold get_bq_client
    simp [get_bq_client_loop, h1, h2]
  exact ⟨hmain, fun c p => by simp [hmain], by simp [hmain]⟩

/-- Witness for C10: a non-transient first failure ends in
`UnboundLocalError`. -/
theorem claim10_unbound_local_witness :
    get_bq_client (fun _ => Except.error "boom") 1 = GetBqResult.unboundLocalError :=
  (claim10_unbound_local (fun _ => Except.error "boom") "boom" 0 rfl (by decide)).1

/-- Claim C1: reconciliation is an upsert keyed on display name.  If some
listed configuration's display name equals the table name, the reconciler
updates it and returns the `Updated` message carrying the updated resource's
name (issuing no create); otherwise it issues exactly one create request
with the full spec and returns the `Created` message carrying the created
resource's name. -/
theorem claim1_upsert_keyed_on_display_name (table query : String)
    (run_time : Nat) (s : Service) :
    ((∃ c ∈ s.configs, c.display_name = table) →
      ∃ m ∈ s.configs, m.display_name = table ∧
        (create_or_update_scheduled_query table query run_time s).1 =
          "Updated scheduled query " ++ apos ++ m.name ++ apos ∧
        (create_or_update_scheduled_query table query run_time s).2.2.head? =
          some (Call.updateCall
            { mk_transfer_config table query with name := m.name } ["params"]) ∧
        ∀ cl ∈ (create_or_update_scheduled_query table query run_time s).2.2,
          ∀ spec, cl ≠ Call.createCall spec) ∧
    ((∀ c ∈ s.configs, c.display_name ≠ table) →
      (create_or_update_scheduled_query table query run_time s).2.2 =
        [Call.createCall (mk_transfer_config table query)] ∧
      (create_or_update_scheduled_query table query run_time s).1 =
        "Created scheduled query " ++ apos ++ fresh_name s ++ apos ∧
      (create_or_update_scheduled_query table query run_time s).2.1.configs =
        s.configs ++ [{ mk_transfer_config table query with name := fresh_name s }]) := by
  constructor
  · intro h
    obtain ⟨l1, m, l2, heq, hl1, hm⟩ := exists_first_match table s.configs h
    have hloop := reconcile_loop_first_match table (mk_transfer_config table query)
      run_time s l1 m l2 hl1 hm
    rw [← heq] at hloop
    have hmem : m ∈ s.configs := by
      rw [heq]
      exact List.mem_append_right l1 (List.mem_cons_self m l2)
    have hresp := response_name_update_eq s
      { mk_transfer_config table query with name := m.name } ["params"] ⟨m, hmem, rfl⟩
    have heqr := create_or_update_eq_some table query run_time s _ hloop
    refine ⟨m, hmem, hm, ?_, ?_, ?_⟩
    · rw [heqr]
      simp only [hresp]
    · rw [heqr]
      rfl
    · rw [heqr]
      intro cl hcl spec
      rcases List.mem_cons.mp hcl with h1 | h2
      · subst h1
        simp
      · simp only [List.mem_cons, List.not_mem_nil, or_false] at h2
        subst h2
        simp
  · intro h
    have hloop := reconcile_loop_eq_none table (mk_transfer_config table query)
      run_time s s.configs h
    rw [create_or_update_eq_none table query run_time s hloop]
    exact ⟨rfl, rfl, rfl⟩

/-- Witness for C1: against an empty service, reconciling issues exactly one
create with the full spec and reports `Created` with the fresh resource
name. -/
theorem claim1_upsert_keyed_on_display_name_witness :
    (∀ c ∈ (Service.mk [] 0).configs, c.display_name ≠ "deployments") ∧
    ((create_or_update_scheduled_query "deployments" "SELECT 1" 7
        (Service.mk [] 0)).2.2 =
      [Call.createCall (mk_transfer_config "deployments" "SELECT 1")] ∧
    (create_or_update_scheduled_query "deployments" "SELECT 1" 7
        (Service.mk [] 0)).1 =
      "Created scheduled query " ++ apos ++ fresh_name (Service.mk [] 0) ++ apos ∧
    (create_or_update_scheduled_query "deployments" "SELECT 1" 7
        (Service.mk [] 0)).2.1.configs =
      (Service.mk [] 0).configs ++
        [{ mk_transfer_config "deployments" "SELECT 1" with
            name := fresh_name (Service.mk [] 0) }]) :=
  ⟨by simp,
   (claim1_upsert_keyed_on_display_name "deployments" "SELECT 1" 7
     (Service.mk [] 0)).2 (by simp)⟩

/-- Claim C2: every update the reconciler performs carries the field mask
`["params"]`, and after the update no remote configuration's name,
destination dataset, display name, data source or schedule has changed:
only `params` is written. -/
theorem claim2_update_mask_scoping (table query : String) (run_time : Nat)
    (s : Service) (h : ∃ c ∈ s.configs, c.display_name = table) :
    (∀ spec mask, Call.updateCall spec mask ∈
        (create_or_update_scheduled_query table query run_time s).2.2 →
      mask = ["params"]) ∧
    (create_or_update_scheduled_query table query run_time s).2.1.configs.map
        (fun c => (c.name, c.destination_dataset_id, c.display_name,
          c.data_source_id, c.schedule))
      = s.configs.map (fun c => (c.name, c.destination_dataset_id,
          c.display_name, c.data_source_id, c.schedule)) := by
  obtain ⟨l1, m, l2, heq, hl1, hm⟩ := exists_first_match table s.configs h
  have hloop := reconcile_loop_first_match table (mk_transfer_config table query)
    run_time s l1 m l2 hl1 hm
  rw [← heq] at hloop
  have heqr := create_or_update_eq_some table query run_time s _ hloop
  constructor
  · intro spec mask hmem
    rw [heqr] at hmem
    rcases List.mem_cons.mp hmem with h1 | h2
    · exact (Call.updateCall.injEq _ _ _ _).mp h1.symm |>.2.symm ▸ rfl
    · simp at h2
  · rw [heqr]
    show (s.configs.map _).map _ = _
    rw [List.map_map]
    apply List.map_congr_left
    intro c _
    simp only [Function.comp]
    by_cases hname :
        (c.name == ({ mk_transfer_config table query with name := m.name } :
          TransferConfig).name) = true
    · simp only [hname, if_true, apply_field_mask_params_eq]
    · simp only [Bool.not_eq_true] at hname
      simp [hname]

/-- Witness for C2: against a service holding a matching configuration, the
single update call is masked to `params` and the non-params view of the
service is unchanged. -/
theorem claim2_update_mask_scoping_witness :
    (∃ c ∈ sampleService.configs, c.display_name = "deployments") ∧
    ((∀ spec mask, Call.updateCall spec mask ∈
        (create_or_update_scheduled_query "deployments" "SELECT 1" 7
          sampleService).2.2 →
      mask = ["params"]) ∧
    (create_or_update_scheduled_query "deployments" "SELECT 1" 7
        sampleService).2.1.configs.map
        (fun c => (c.name, c.destination_dataset_id, c.display_name,
          c.data_source_id, c.schedule))
      = sampleService.configs.map
          (fun c => (c.name, c.destination_dataset_id, c.display_name,
            c.data_source_id, c.schedule))) :=
  ⟨⟨sampleConfig, List.mem_cons_self sampleConfig [], rfl⟩,
   claim2_update_mask_scoping "deployments" "SELECT 1" 7 sampleService
     ⟨sampleConfig, List.mem_cons_self sampleConfig [], rfl⟩⟩

/-- Claim C3: with the remote list split as `l1 ++ m :: l2` where `m` is the
first configuration whose display name matches (later duplicates may sit in
`l2`), the reconciler updates only `m` — copying `m`'s resource name onto
the spec in its update call — returns `m`'s name, and leaves every
configuration in `l1` and `l2` exactly as it was. -/
theorem claim3_first_match_wins (table query : String) (run_time : Nat)
    (s : Service) (l1 : List TransferConfig) (m : TransferConfig)
    (l2 : List TransferConfig) (hs : s.configs = l1 ++ m :: l2)
    (hl1 : ∀ c ∈ l1, c.display_name ≠ table) (hm : m.display_name = table)
    (hnd : (s.configs.map (fun c => c.name)).Nodup) :
    (create_or_update_scheduled_query table query run_time s).1 =
      "Updated scheduled query " ++ apos ++ m.name ++ apos ∧
    (create_or_update_scheduled_query table query run_time s).2.2 =
      [Call.updateCall { mk_transfer_config table query with name := m.name }
        ["params"],
       Call.manualRunCall m.name run_time] ∧
    (create_or_update_scheduled_query table query run_time s).2.1.configs =
      l1 ++ { m with params := (mk_transfer_config table query).params } :: l2 := by
  have hloop := reconcile_loop_first_match table (mk_transfer_config table query)
    run_time s l1 m l2 hl1 hm
  rw [← hs] at hloop
  have hmem : m ∈ s.configs := by
    rw [hs]
    exact List.mem_append_right l1 (List.mem_cons_self m l2)
  have hresp := response_name_update_eq s
    { mk_transfer_config table query with name := m.name } ["params"] ⟨m, hmem, rfl⟩
  have heqr := create_or_update_eq_some table query run_time s _ hloop
  rw [hs] at hnd
  obtain ⟨hn1, hn2⟩ := names_ne_of_nodup l1 m l2 hnd
  refine ⟨?_, ?_, ?_⟩
  · rw [heqr]
    simp only [hresp]
  · rw [heqr]
  · rw [heqr]
    show (s.configs.map _) = _
    rw [hs]
    rw [map_update_decomp ["params"]
      { mk_transfer_config table query with name := m.name } l1 m l2 hn1 hn2 rfl]
    rw [apply_field_mask_params_eq]

/-- Witness for C3: with two configurations both named `deployments`, only
the first is updated; the second keeps its stale params. -/
theorem claim3_first_match_wins_witness :
    (create_or_update_scheduled_query "deployments" "SELECT 1" 7 dupService).1 =
      "Updated scheduled query " ++ apos ++ sampleConfig.name ++ apos ∧
    (create_or_update_scheduled_query "deployments" "SELECT 1" 7 dupService).2.2 =
      [Call.updateCall
        { mk_transfer_config "deployments" "SELECT 1" with name := sampleConfig.name }
        ["params"],
       Call.manualRunCall sampleConfig.name 7] ∧
    (create_or_update_scheduled_query "deployments" "SELECT 1" 7
        dupService).2.1.configs =
      [] ++ { sampleConfig with
          params := (mk_transfer_config "deployments" "SELECT 1").params } ::
        [sampleConfig2] :=
  claim3_first_match_wins "deployments" "SELECT 1" 7 dupService [] sampleConfig
    [sampleConfig2] rfl (by simp) rfl (by decide)

/-- Claim C6: the update path issues exactly one manual-run request,
timestamped at the current time and naming the updated configuration's
resource, immediately after the update call; the create path issues no
manual-run request. -/
theorem claim6_manual_run_on_update (table query : String) (run_time : Nat)
    (s : Service) :
    ((∃ c ∈ s.configs, c.display_name = table) →
      ∃ spec, (create_or_update_scheduled_query table query run_time s).2.2 =
        [Call.updateCall spec ["params"],
         Call.manualRunCall spec.name run_time]) ∧
    ((∀ c ∈ s.configs, c.display_name ≠ table) →
      ∀ nm t, Call.manualRunCall nm t ∉
        (create_or_update_scheduled_query table query run_time s).2.2) := by
  constructor
  · intro h
    obtain ⟨l1, m, l2, heq, hl1, hm⟩ := exists_first_match table s.configs h
    have hloop := reconcile_loop_first_match table (mk_transfer_config table query)
      run_time s l1 m l2 hl1 hm
    rw [← heq] at hloop
    have heqr := create_or_update_eq_some table query run_time s _ hloop
    refine ⟨{ mk_transfer_config table query with name := m.name }, ?_⟩
    rw [heqr]
  · intro h nm t hmem
    have hloop := reconcile_loop_eq_none table (mk_transfer_config table query)
      run_time s s.configs h
    rw [create_or_update_eq_none table query run_time s hloop] at hmem
    simp at hmem

/-- Witness for C6: one matching configuration yields the
update-then-manual-run trace. -/
theorem claim6_manual_run_on_update_witness :
    (∃ c ∈ sampleService.configs, c.display_name = "deployments") ∧
    ∃ spec, (create_or_update_scheduled_query "deployments" "SELECT 1" 7
        sampleService).2.2 =
      [Call.updateCall spec ["params"], Call.manualRunCall spec.name 7] :=
  ⟨⟨sampleConfig, List.mem_cons_self sampleConfig [], rfl⟩,
   (claim6_manual_run_on_update "deployments" "SELECT 1" 7 sampleService).1
     ⟨sampleConfig, List.mem_cons_self sampleConfig [], rfl⟩⟩

/-- The keyed params-masked update never changes a display name. -/
lemma update_map_display_name (spec c : TransferConfig) (key : String) :
    (if c.name == key then apply_field_mask ["params"] spec c else c).display_name
      = c.display_name := by
  by_cases h : (c.name == key) = true
  · simp [h, apply_field_mask_params_eq]
  · simp only [Bool.not_eq_true] at h
    simp [h]

/-- Claim C5: reconciling twice with the same arguments, starting from a
service with no configuration of that display name, performs a create and
then an update of the created configuration (no second create), and leaves
exactly one remote configuration whose display name is the table name. -/
theorem claim5_idempotent_upsert (table query : String) (t1 t2 : Nat)
    (s : Service) (h0 : ∀ c ∈ s.configs, c.display_name ≠ table) :
    (create_or_update_scheduled_query table query t1 s).2.2 =
      [Call.createCall (mk_transfer_config table query)] ∧
    (create_or_update_scheduled_query table query t2
        (create_or_update_scheduled_query table query t1 s).2.1).2.2 =
      [Call.updateCall
        { mk_transfer_config table query with name := fresh_name s } ["params"],
       Call.manualRunCall (fresh_name s) t2] ∧
    (create_or_update_scheduled_query table query t2
        (create_or_update_scheduled_query table query t1 s).2.1).2.1.configs.filter
        (fun c => c.display_name == table)
      = [{ mk_transfer_config table query with name := fresh_name s }] := by
  have hloop1 := reconcile_loop_eq_none table (mk_transfer_config table query)
    t1 s s.configs h0
  have heq1 := create_or_update_eq_none table query t1 s hloop1
  have hmc : ({ mk_transfer_config table query with name := fresh_name s } :
      TransferConfig).display_name = table := rfl
  have hloop2 := reconcile_loop_first_match table (mk_transfer_config table query)
    t2 ({ configs := s.configs ++
            [{ mk_transfer_config table query with name := fresh_name s }],
          next_id := s.next_id + 1 } : Service)
    s.configs { mk_transfer_config table query with name := fresh_name s } [] h0 hmc
  have heq2 := create_or_update_eq_some table query t2
    ({ configs := s.configs ++
          [{ mk_transfer_config table query with name := fresh_name s }],
        next_id := s.next_id + 1 } : Service) _ hloop2
  rw [heq1]
  refine ⟨rfl, ?_, ?_⟩
  · rw [heq2]
  · rw [heq2]
    show (((s.configs ++
        [{ mk_transfer_config table query with name := fresh_name s }]).map _).filter _) = _
    rw [List.map_append, List.filter_append]
    have hnil : ((s.configs.map (fun c =>
        if c.name == ({ mk_transfer_config table query with
          name := fresh_name s } : TransferConfig).name then
          apply_field_mask ["params"]
            { mk_transfer_config table query with name := fresh_name s } c
        else c)).filter (fun c => c.display_name == table)) = [] := by
      rw [List.filter_eq_nil_iff]
      intro a ha
      obtain ⟨c, hc, rfl⟩ := List.mem_map.mp ha
      rw [update_map_display_name]
      simp [h0 c hc]
    have hone : (([{ mk_transfer_config table query with name := fresh_name s }].map
        (fun c =>
          if c.name == ({ mk_transfer_config table query with
            name := fresh_name s } : TransferConfig).name then
            apply_field_mask ["params"]
              { mk_transfer_config table query with name := fresh_name s } c
          else c)).filter (fun c => c.display_name == table)) =
        [{ mk_transfer_config table query with name := fresh_name s }] := by
      simp [apply_field_mask_params_eq, mk_transfer_config]
    rw [hnil, hone]
    rfl

/-- Witness for C5: from the empty service, the first call creates, the
second updates the created configuration, and exactly one configuration
named `deployments` remains. -/
theorem claim5_idempotent_upsert_witness :
    (∀ c ∈ (Service.mk [] 0).configs, c.display_name ≠ "deployments") ∧
    ((create_or_update_scheduled_query "deployments" "SELECT 1" 1
        (Service.mk [] 0)).2.2 =
      [Call.createCall (mk_transfer_config "deployments" "SELECT 1")] ∧
    (create_or_update_scheduled_query "deployments" "SELECT 1" 2
        (create_or_update_scheduled_query "deployments" "SELECT 1" 1
          (Service.mk [] 0)).2.1).2.2 =
      [Call.updateCall
        { mk_transfer_config "deployments" "SELECT 1" with
            name := fresh_name (Service.mk [] 0) } ["params"],
       Call.manualRunCall (fresh_name (Service.mk [] 0)) 2] ∧
    (create_or_update_scheduled_query "deployments" "SELECT 1" 2
        (create_or_update_scheduled_query "deployments" "SELECT 1" 1
          (Service.mk [] 0)).2.1).2.1.configs.filter
        (fun c => c.display_name == "deployments")
      = [{ mk_transfer_config "deployments" "SELECT 1" with
            name := fresh_name (Service.mk [] 0) }]) :=
  ⟨by simp,
   claim5_idempotent_upsert "deployments" "SELECT 1" 1 2 (Service.mk [] 0)
     (by simp)⟩

/-- Claim C7: a reconcile invocation never mutates any configuration whose
display name differs from the reconciled table name — the sub-sequence of
such configurations is exactly the same before and after (given the remote
resource names are pairwise distinct, as the remote service guarantees). -/
theorem claim7_identity_by_name (table query : String) (run_time : Nat)
    (s : Service) (hnd : (s.configs.map (fun c => c.name)).Nodup) :
    (create_or_update_scheduled_query table query run_time s).2.1.configs.filter
        (fun c => !(c.display_name == table))
      = s.configs.filter (fun c => !(c.display_name == table)) := by
  by_cases h : ∃ c ∈ s.configs, c.display_name = table
  · obtain ⟨l1, m, l2, heq, hl1, hm⟩ := exists_first_match table s.configs h
    have hloop := reconcile_loop_first_match table (mk_transfer_config table query)
      run_time s l1 m l2 hl1 hm
    rw [← heq] at hloop
    have heqr := create_or_update_eq_some table query run_time s _ hloop
    rw [heq] at hnd
    obtain ⟨hn1, hn2⟩ := names_ne_of_nodup l1 m l2 hnd
    rw [heqr]
    show (s.configs.map _).filter _ = _
    rw [heq, map_update_decomp ["params"]
      { mk_transfer_config table query with name := m.name } l1 m l2 hn1 hn2 rfl,
      apply_field_mask_params_eq]
    rw [List.filter_append, List.filter_append]
    congr 1
    simp [List.filter_cons, hm]
  · have hall : ∀ c ∈ s.configs, c.display_name ≠ table := by
      intro c hc hdc
      exact h ⟨c, hc, hdc⟩
    have hloop := reconcile_loop_eq_none table (mk_transfer_config table query)
      run_time s s.configs hall
    rw [create_or_update_eq_none table query run_time s hloop]
    show ((s.configs ++
        [{ mk_transfer_config table query with name := fresh_name s }]).filter _) = _
    rw [List.filter_append]
    simp [mk_transfer_config]

/-- Witness for C7: reconciling table `events` against a service holding
only a `deployments` configuration leaves that configuration untouched. -/
theorem claim7_identity_by_name_witness :
    (sampleService.configs.map (fun c => c.name)).Nodup ∧
    (create_or_update_scheduled_query "events" "SELECT 2" 3
        sampleService).2.1.configs.filter
        (fun c => !(c.display_name == "events"))
      = sampleService.configs.filter (fun c => !(c.display_name == "events")) :=
  ⟨by decide,
   claim7_identity_by_name "events" "SELECT 2" 3 sampleService (by decide)⟩

/-- Claim C8: the spec built by the reconciler has exactly the fixed
destination dataset, the table name as display name and destination table
template, the fixed scheduled-query data source, the raw query text, the
fixed overwrite disposition, and the fixed "every 24 hours" cadence. -/
theorem claim8_spec_fields (table query : String) :
    (mk_transfer_config table query).destination_dataset_id = "four_keys" ∧
    (mk_transfer_config table query).display_name = table ∧
    (mk_transfer_config table query).data_source_id = "scheduled_query" ∧
    (mk_transfer_config table query).params.query = query ∧
    (mk_transfer_config table query).params.destination_table_name_template = table ∧
    (mk_transfer_config table query).params.write_disposition = "WRITE_TRUNCATE" ∧
    (mk_transfer_config table query).schedule = "every 24 hours" :=
  ⟨rfl, rfl, rfl, rfl, rfl, rfl, rfl⟩

end Schedule
